import Mathlib

/-!
Shallow embedding of the centroid tracker and the per-stream processing loop
of `main.py` (RTSP Person Detector API), together with proofs about the
behaviour the specification describes.

Pixel coordinates and confidences are modelled as rationals; machine floats
are assumed exact.  The square root in the distance computation of
`CentroidTracker.update` is eliminated by comparing squared distances, which
is equivalent for nonnegative thresholds (the hypotheses of the relevant
theorems, and all concrete inputs, use nonnegative `max_distance`).
-/

/-- A pixel-space point (x, y). -/
abbrev Pt : Type := ℚ × ℚ

/-- One detector output box: corner coordinates, confidence and class id
(the fields `box.xyxy`, `box.conf`, `box.cls` read at main.py lines 206-213). -/
structure Box where
  x1 : ℚ
  y1 : ℚ
  x2 : ℚ
  y2 : ℚ
  conf : ℚ
  cls : ℤ
  deriving DecidableEq, Repr

/-- Centroid of a box: `((x1 + x2) / 2, (y1 + y2) / 2)` (main.py line 212). -/
def Box.centroid (b : Box) : Pt := ((b.x1 + b.x2) / 2, (b.y1 + b.y2) / 2)

/-- Squared euclidean distance; the source compares
`sqrt (dx ** 2 + dy ** 2)` against thresholds, we compare the squares. -/
def dist2 (p q : Pt) : ℚ := (p.1 - q.1) ^ 2 + (p.2 - q.2) ^ 2

/-- Tracker configuration, the `model_config["tracking"]` sub-dictionary
read in `CentroidTracker.__init__` (main.py lines 194-197). -/
structure TrackerConfig where
  max_distance : ℚ
  min_confidence : ℚ
  max_age : ℕ
  min_hits : ℕ
  deriving DecidableEq, Repr

/-- One live track: a key of `self.centroids` together with its value
`(centroid, age, hits)` and the parallel `self.track_history` entry.  The
two dictionaries always hold exactly the same keys (entries are created at
lines 240-241 and deleted at lines 218-220 together), so they are bundled. -/
structure Track where
  id : ℕ
  centroid : Pt
  age : ℕ
  hits : ℕ
  history : List Pt
  deriving DecidableEq, Repr

/-- The record appended to `self.detections` by `_save_detection`
(main.py lines 294-313); file output and wall-clock timestamps are
abstracted away. -/
structure SaveEvt where
  track_id : ℕ
  class_id : ℤ
  confidence : ℚ
  centroid : Pt
  track_history : List Pt
  deriving DecidableEq, Repr

/-- State of a `CentroidTracker` instance (main.py lines 190-199; the unused
`detections`-list config fields are omitted).  `tracks` is kept in Python
dict insertion order: value updates keep a key's position, new keys append. -/
structure CentroidTracker where
  next_id : ℕ
  tracks : List Track
  detections : List SaveEvt
  frame_count : ℕ
  deriving DecidableEq, Repr

/-- Freshly constructed tracker (main.py lines 190-199). -/
def CentroidTracker.init : CentroidTracker := ⟨0, [], [], 0⟩

/-- Intermediate state of the association loop (main.py lines 226-257).
`hitsVar` models the Python local variable `hits`, whose binding leaks
between the loops of `update`; `none` means the name is still unbound, and
reading it raises `NameError` (recorded in `err`, which aborts the rest of
the loop).  `created` and `pushes` are ghost observation logs used only to
state theorems: the ids handed to fresh tracks, and every (id, centroid)
pair appended to a track history, in program order. -/
structure AssocSt where
  tracks : List Track
  next_id : ℕ
  hitsVar : Option ℕ
  assigned : List (ℕ × Box)
  saves : List SaveEvt
  err : Bool
  created : List ℕ
  pushes : List (ℕ × Pt)
  deriving Repr

/-- One step of the nearest-neighbour scan (main.py lines 231-236): keep the
strictly closer candidate among tracks within `max_distance`; on equal
distance the earlier track is kept (the comparison is strict). -/
def scanStep (cfg : TrackerConfig) (c : Pt) (best : Option (ℚ × ℕ)) (t : Track) :
    Option (ℚ × ℕ) :=
  let d := dist2 c t.centroid
  match best with
  | none => if d < cfg.max_distance ^ 2 then some (d, t.id) else best
  | some (m, i) => if d < cfg.max_distance ^ 2 ∧ d < m then some (d, t.id) else some (m, i)

/-- The nearest-neighbour scan over the live tracks, in dict order. -/
def scanTracks (cfg : TrackerConfig) (c : Pt) (tracks : List Track) : Option (ℚ × ℕ) :=
  tracks.foldl (scanStep cfg c) none

/-- Age bookkeeping (main.py lines 216-223): delete every entry whose stored
age already exceeds `max_age` (its history entry is deleted with it) and
increment the age of each survivor. -/
def ageStep (max_age : ℕ) (tracks : List Track) : List Track :=
  tracks.filterMap fun t =>
    if max_age < t.age then none else some { t with age := t.age + 1 }

/-- History trimming (main.py lines 248-250): if the history holds more than
30 entries, keep only the most recent 30. -/
def trimHist (h : List Pt) : List Pt :=
  if 30 < h.length then h.drop (h.length - 30) else h

/-- In-place value update of the dict entry with key `i`, keeping its
position (Python dict assignment to an existing key). -/
def setTrack (tracks : List Track) (i : ℕ) (f : Track → Track) : List Track :=
  tracks.map fun t => if t.id = i then f t else t

/-- The guarded save call (main.py lines 254-257):
`if model_config["tracking"]["enabled"] and hits >= self.min_hits`, given
the live tracks and the current value of the leaked local `hits`.  Python
evaluates `hits` only when tracking is enabled; if the name is unbound this
raises NameError (second component `true`).  `_save_detection` catches its
own exceptions (lines 316-317), so an event is recorded only when the
`YOLO_CLASSES[class_id]` lookup succeeds, i.e. for class ids 0..79; file
I/O is assumed to succeed.  The returned list is what gets appended to
`self.detections`. -/
def saveCheck (cfg : TrackerConfig) (trackingEnabled : Bool) (tracks : List Track)
    (hitsVar : Option ℕ) (i : ℕ) (b : Box) : List SaveEvt × Bool :=
  if trackingEnabled then
    match hitsVar with
    | none => ([], true)
    | some h =>
        if cfg.min_hits ≤ h then
          match tracks.find? (fun t => t.id = i) with
          | some t =>
              if 0 ≤ b.cls ∧ b.cls < 80 then
                ([⟨i, b.cls, b.conf, t.centroid, t.history⟩], false)
              else ([], false)
          | none => ([], false)
        else ([], false)
  else ([], false)

/-- One iteration of the association loop (main.py lines 227-257) for the
detection carried by box `b`.  In order: the nearest-neighbour scan (whose
loop rebinds the local `hits` to the last iterated track's hits whenever at
least one track exists), match or create, history trimming (a no-op on the
singleton history of a fresh track), the append to `assigned_ids`, and the
guarded save.  Once `err` is set the remaining detections are not processed
(the exception propagates out of `update`). -/
def assocStep (cfg : TrackerConfig) (trackingEnabled : Bool) (st : AssocSt) (b : Box) :
    AssocSt :=
  if st.err then st else
  let c := b.centroid
  let hv1 : Option ℕ := match st.tracks.getLast? with
    | some t => some t.hits
    | none => st.hitsVar
  match scanTracks cfg c st.tracks with
  | none =>
      let t : Track := ⟨st.next_id, c, 0, 1, [c]⟩
      let tracks2 := st.tracks ++ [t]
      let sv := saveCheck cfg trackingEnabled tracks2 hv1 t.id b
      { tracks := tracks2,
        next_id := st.next_id + 1,
        hitsVar := hv1,
        assigned := st.assigned ++ [(t.id, b)],
        saves := st.saves ++ sv.1,
        err := sv.2,
        created := st.created ++ [t.id],
        pushes := st.pushes ++ [(t.id, c)] }
  | some (_, i) =>
      match st.tracks.find? (fun t => t.id = i) with
      | none => { st with err := true }
      | some t =>
          let tracks2 := setTrack st.tracks i
            (fun u => { u with centroid := c, hits := u.hits + 1,
                               history := trimHist (u.history ++ [c]) })
          let sv := saveCheck cfg trackingEnabled tracks2 (some t.hits) i b
          { tracks := tracks2,
            next_id := st.next_id,
            hitsVar := some t.hits,
            assigned := st.assigned ++ [(i, b)],
            saves := st.saves ++ sv.1,
            err := sv.2,
            created := st.created,
            pushes := st.pushes ++ [(i, c)] }

/-- Confidence filtering (main.py lines 206-213): only boxes with
`confidence >= min_confidence` enter the association loop.  The centroid,
confidence and class carried alongside in `new_centroids` are recomputed
from the box where needed. -/
def newCentroids (cfg : TrackerConfig) (boxes : List Box) : List Box :=
  boxes.filter fun b => cfg.min_confidence ≤ b.conf

/-- Result of one `CentroidTracker.update` call.  `ret = none` means the
call raised (the NameError of line 255): the state mutations made before
the raise persist, but the local `assigned_ids` never reaches the caller.
`created` and `pushes` are ghost observation logs. -/
structure UpdateResult where
  state : CentroidTracker
  ret : Option (List (ℕ × Box))
  created : List ℕ
  pushes : List (ℕ × Pt)
  deriving Repr

/-- The method `CentroidTracker.update` (main.py lines 201-259).
`trackingEnabled` is the `model_config["tracking"]["enabled"]` flag read at
line 255.  The age-bookkeeping loop at lines 216-223 iterates over a
snapshot of the dict and thereby binds the local `hits` to the last
snapshot entry's hits whenever the snapshot is nonempty. -/
def CentroidTracker.update (cfg : TrackerConfig) (trackingEnabled : Bool)
    (s : CentroidTracker) (boxes : List Box) : UpdateResult :=
  let news := newCentroids cfg boxes
  let hv0 : Option ℕ := (s.tracks.getLast?).map (·.hits)
  let st0 : AssocSt := ⟨ageStep cfg.max_age s.tracks, s.next_id, hv0, [], [], false, [], []⟩
  let fin := news.foldl (assocStep cfg trackingEnabled) st0
  { state := ⟨fin.next_id, fin.tracks, s.detections ++ fin.saves, s.frame_count + 1⟩,
    ret := if fin.err then none else some fin.assigned,
    created := fin.created,
    pushes := fin.pushes }

/-- Iterate `update` over a list of per-cycle detection batches, threading
the state and accumulating the ghost creation and history-push logs. -/
def runTracker (cfg : TrackerConfig) (trackingEnabled : Bool) :
    CentroidTracker × List ℕ × List (ℕ × Pt) → List (List Box) →
    CentroidTracker × List ℕ × List (ℕ × Pt)
  | acc, [] => acc
  | (s, cs, ps), boxes :: rest =>
      let r := CentroidTracker.update cfg trackingEnabled s boxes
      runTracker cfg trackingEnabled (r.state, cs ++ r.created, ps ++ r.pushes) rest

/-- Stream status values written to `active_streams[stream_id]["status"]`. -/
inductive StreamStatus
  | connecting
  | running
  | stopping
  | stopped
  | error
  deriving DecidableEq, Repr

/-- Performance metrics (`performance_metrics`).  The wall-clock quantities
fps and processing_time are not modelled; `detection_count` mirrors main.py
line 545 (it is set to the running frame counter) and `daily_frames_saved`
line 516. -/
structure Metrics where
  detection_count : ℕ
  daily_frames_saved : ℕ
  deriving DecidableEq, Repr

/-- The per-stream record in `active_streams` (main.py lines 430-444),
restricted to the fields the processing loop writes.  `detCounts` is the
per-class counter dictionary, keyed here by class id (the source keys it by
class name through the injective table `YOLO_CLASSES`); the wall-clock
`last_detection` timestamp is abstracted by the value of the frame counter
at the time of writing. -/
structure StreamInfo where
  status : StreamStatus
  detCounts : List (ℤ × ℕ)
  lastDetection : Option ℕ
  analysisStatus : Option Unit
  metrics : Metrics
  deriving DecidableEq, Repr

/-- Configuration consumed by `process_stream_api`: the tracking block, the
detector class filter, `save_config`, frame decimation, image size and the
RTSP reconnect policy (`process_every_n_frames` is assumed positive, as in
every configuration shipped with the source; `n = 0` would raise
ZeroDivisionError at line 488). -/
structure ProcConfig where
  tracking : TrackerConfig
  trackingEnabled : Bool
  analysisEnabled : Bool
  classes : List ℤ
  process_every_n_frames : ℕ
  img_size : ℚ
  save_all_frames : Bool
  save_detections : Bool
  max_frames_per_day : ℕ
  reconnect_attempts : ℕ
  reconnect_delay : ℚ
  deriving Repr

/-- Ghost trace of the loop's externally visible actions: sleeps (with their
duration in seconds), frame resizes, detector invocations and full-frame
writes. -/
inductive PAct
  | sleep (seconds : ℚ)
  | resize
  | detect
  | imwrite
  deriving DecidableEq, Repr

/-- State of one `process_stream_api` worker: the published `StreamInfo`,
the tracker, the local counters of main.py lines 424-427 and 456, and the
ghost action trace. -/
structure ProcState where
  info : StreamInfo
  tracker : CentroidTracker
  frame_count : ℕ
  daily_frame_count : ℕ
  last_day : ℤ
  reconnect_count : ℕ
  acts : List PAct
  deriving Repr

/-- Initial worker state (main.py lines 423-456): local counters zeroed,
status `connecting`, one zeroed per-class counter for each configured class
(line 432); `startDay` abstracts `datetime.now().date()` of line 426. -/
def initProcState (cfg : ProcConfig) (startDay : ℤ) : ProcState :=
  { info := { status := .connecting,
              detCounts := cfg.classes.map fun c => (c, 0),
              lastDetection := none,
              analysisStatus := none,
              metrics := ⟨0, 0⟩ },
    tracker := CentroidTracker.init,
    frame_count := 0,
    daily_frame_count := 0,
    last_day := startDay,
    reconnect_count := 0,
    acts := [] }

/-- One capture event of the inner frame loop: a failed `cap.read()` or a
decoded frame, carrying its capture date (`datetime.now().date()` at line
478), its pixel width, and the opaque detector output for it (one box list
per result object). -/
inductive FrameEvt
  | readFail
  | frame (day : ℤ) (width : ℚ) (results : List (List Box))
  deriving Repr

/-- One attempt of the outer reconnect loop: the capture either fails to
open (`cv2.VideoCapture` unusable, line 462-463), or opens and yields the
given capture events, after which either an external stop request is
observed (`stopAfter = true`) or the recorded trace simply ends. -/
inductive ConnEvt
  | openFail
  | openOk (frames : List FrameEvt) (stopAfter : Bool)
  deriving Repr

/-- Daily-limit date rollover (main.py lines 478-481): on a date change the
daily frame counter resets to 0 and the stored day advances (on the same
day both fields are left as they are). -/
def rollDay (s : ProcState) (day : ℤ) : ProcState :=
  { s with
    daily_frame_count := if day ≠ s.last_day then 0 else s.daily_frame_count,
    last_day := day }

/-- One per-detection counter update (main.py lines 520-522).  Looking up a
class absent from the counter dictionary (a class outside the configured
`classes`, or an id without a `YOLO_CLASSES` entry) raises KeyError, which
is modelled by `none`. -/
def bumpOne (info : StreamInfo) (now : ℕ) (cls : ℤ) : Option StreamInfo :=
  if (info.detCounts.find? (fun p => p.1 = cls)).isSome then
    some { info with
      detCounts := info.detCounts.map fun p => if p.1 = cls then (p.1, p.2 + 1) else p,
      lastDetection := some now }
  else none

/-- The counter loop of main.py lines 519-522 over the assigned detections;
on a KeyError the updates made before the raise persist and the exception
flag is set. -/
def bumpCounters (info : StreamInfo) (now : ℕ) : List (ℕ × Box) → StreamInfo × Bool
  | [] => (info, false)
  | (_, b) :: rest =>
      match bumpOne info now b.cls with
      | none => (info, true)
      | some info2 => bumpCounters info2 now rest

/-- The per-frame results loop (main.py lines 506-522): one tracker update
per nonempty box list; when detections were returned and `save_detections`
is set, the daily counter and the published metric advance; then the
per-class counters and the last-detection stamp advance once per assigned
detection.  A tracker NameError or a counter KeyError aborts the loop with
the exception flag set (the mutations made before the raise persist). -/
def resultsLoop (cfg : ProcConfig) :
    ProcState → Bool → List (List Box) → ProcState × Bool × Bool
  | s, saved, [] => (s, saved, false)
  | s, saved, boxes :: rest =>
    if boxes.isEmpty then resultsLoop cfg s saved rest
    else
      let u := CentroidTracker.update cfg.tracking cfg.trackingEnabled s.tracker boxes
      let s1 := { s with tracker := u.state }
      match u.ret with
      | none => (s1, saved, true)
      | some dets =>
          let hit := ¬dets.isEmpty ∧ cfg.save_detections
          let s2 := { s1 with
            daily_frame_count :=
              if hit then s1.daily_frame_count + 1 else s1.daily_frame_count,
            info.metrics.daily_frames_saved :=
              if hit then s1.daily_frame_count + 1
              else s1.info.metrics.daily_frames_saved }
          let saved2 := if hit then true else saved
          let i2 := bumpCounters s2.info s2.frame_count dets
          let s3 := { s2 with info := i2.1 }
          if i2.2 then (s3, saved2, true) else resultsLoop cfg s3 saved2 rest

/-- One iteration of the frame loop (main.py lines 468-555) for one capture
event.  A failed read (lines 470-473) sleeps one second and continues; an
accepted frame advances the local frame counter, applies the date rollover
and the daily cap (a capped frame is skipped with a one-second sleep),
frame decimation, the conditional resize, the detector invocation, the
results loop, the conditional full-frame save, the metric update, the
conditional analysis update and the 0.1 second pacing sleep.  The boolean
is true when an exception escaped the iteration (it is caught by the
enclosing reconnect loop). -/
def stepFrame (cfg : ProcConfig) (s : ProcState) : FrameEvt → ProcState × Bool
  | .readFail => ({ s with acts := s.acts ++ [.sleep 1] }, false)
  | .frame day width results =>
    let s := { s with frame_count := s.frame_count + 1 }
    let s := rollDay s day
    if cfg.max_frames_per_day ≤ s.daily_frame_count then
      ({ s with acts := s.acts ++ [.sleep 1] }, false)
    else if s.frame_count % cfg.process_every_n_frames ≠ 0 then
      (s, false)
    else
      let s := { s with acts :=
        s.acts ++ (if cfg.img_size < width then [PAct.resize, PAct.detect] else [PAct.detect]) }
      match resultsLoop cfg s false results with
      | (s2, _, true) => (s2, true)
      | (s2, saved, false) =>
          let wr := cfg.save_all_frames ∧ ¬saved
          let s3 := { s2 with
            acts := s2.acts ++ (if wr then [PAct.imwrite] else []),
            daily_frame_count :=
              if wr then s2.daily_frame_count + 1 else s2.daily_frame_count }
          let s4 := { s3 with
            info.metrics.detection_count := s3.frame_count,
            info.analysisStatus :=
              if cfg.analysisEnabled then some () else s3.info.analysisStatus }
          ({ s4 with acts := s4.acts ++ [.sleep (1/10)] }, false)

/-- The inner `while` loop of main.py line 468: poll the status, process one
capture event, stop as soon as an exception is raised. -/
def runFrames (cfg : ProcConfig) : ProcState → List FrameEvt → ProcState × Bool
  | s, [] => (s, false)
  | s, f :: rest =>
      if s.info.status ≠ .running then (s, false)
      else
        let r := stepFrame cfg s f
        if r.2 then (r.1, true) else runFrames cfg r.1 rest

/-- Outcome of one connection attempt: the outer loop was left by `break`,
the `except` handler ran and the loop continues, or the recorded trace
ended inside the inner loop. -/
inductive ConnOutcome
  | broke
  | retried
  | pending
  deriving DecidableEq, Repr

/-- The `except` handler of main.py lines 559-568: the reconnect counter
advances; below the budget the worker sleeps `reconnect_delay` seconds
before retrying, otherwise the status becomes `error`. -/
def exceptPath (cfg : ProcConfig) (s : ProcState) : ProcState :=
  { s with
    reconnect_count := s.reconnect_count + 1,
    acts := s.acts ++
      (if s.reconnect_count + 1 < cfg.reconnect_attempts then [.sleep cfg.reconnect_delay]
       else []),
    info.status :=
      if s.reconnect_count + 1 < cfg.reconnect_attempts then s.info.status else .error }

/-- The body of the reconnect loop (main.py lines 458-572) for one
connection attempt.  An open failure or an exception escaping the frame
loop takes the `except` path; on a successful open the status becomes
`running` (line 465), and an external stop request after the listed frames
models the stop endpoint writing `stopping`, which the inner loop observes
at its head before the `break` of line 557. -/
def connStep (cfg : ProcConfig) (s : ProcState) : ConnEvt → ProcState × ConnOutcome
  | .openFail => (exceptPath cfg s, .retried)
  | .openOk frames stopAfter =>
      let s0 := { s with info.status := .running }
      let r := runFrames cfg s0 frames
      if r.2 then (exceptPath cfg r.1, .retried)
      else if stopAfter then ({ r.1 with info.status := .stopping }, .broke)
      else (r.1, .pending)

/-- The reconnect `while` loop (main.py line 458).  The boolean is true when
the loop was genuinely left (condition false, or `break`), false when the
recorded trace ended first. -/
def runConns (cfg : ProcConfig) : ProcState → List ConnEvt → ProcState × Bool
  | s, [] => (s, cfg.reconnect_attempts ≤ s.reconnect_count)
  | s, c :: rest =>
      if cfg.reconnect_attempts ≤ s.reconnect_count then (s, true)
      else
        match connStep cfg s c with
        | (s1, .broke) => (s1, true)
        | (s1, .retried) => runConns cfg s1 rest
        | (s1, .pending) => (s1, false)

/-- The whole of `process_stream_api` (main.py lines 396-576) driven by a
trace of connection attempts: the reconnect loop followed by the
unconditional final status write of lines 574-575, which runs whenever the
loop exits (the stream record is never cleared mid-run in this model). -/
def procStream (cfg : ProcConfig) (startDay : ℤ) (conns : List ConnEvt) : ProcState :=
  let r := runConns cfg (initProcState cfg startDay) conns
  if r.2 then { r.1 with info.status := .stopped } else r.1

/-! ### Derived notions used to state the properties -/

/-- The suffix of the most recent 30 entries of a history, i.e. what
`trimHist` leaves behind (equal to the whole list when it is short). -/
def dropOld (l : List Pt) : List Pt := l.drop (l.length - 30)

/-- The centroids pushed onto track `i`'s history, in order, as recorded in
a ghost push log. -/
def pushedTo (i : ℕ) (ps : List (ℕ × Pt)) : List Pt :=
  (ps.filter fun q => q.1 = i).map Prod.snd

/-- Basic well-formedness of a tracker state: dict keys are unique and below
the id counter.  It holds in every reachable state. -/
def TrackerWF (s : CentroidTracker) : Prop :=
  (∀ t ∈ s.tracks, t.id < s.next_id) ∧ (s.tracks.map Track.id).Nodup

/-- Invariant of the association-loop state, structural part: `n0` is the
tracker's `next_id` and `aged` its track list right after the
age-bookkeeping loop of the enclosing `update` cycle.  Every live track is
either an aged survivor (same id, same age) or was created this cycle (age
0, fresh id); the ghost creation log is exactly the id interval consumed. -/
def AssocCore (n0 : ℕ) (aged : List Track) (st : AssocSt) : Prop :=
  n0 ≤ st.next_id ∧
  (∀ t ∈ st.tracks, t.id < st.next_id) ∧
  (st.tracks.map Track.id).Nodup ∧
  (∀ t ∈ st.tracks, (∃ u ∈ aged, t.id = u.id ∧ t.age = u.age) ∨ (t.age = 0 ∧ n0 ≤ t.id)) ∧
  st.created = List.range' n0 (st.next_id - n0)

/-- Invariant of the association-loop state, history part, relative to the
ghost push log `ps0` accumulated before the current cycle: every live
history is the most-recent-30 suffix of what was ever pushed to its id. -/
def AssocHist (ps0 : List (ℕ × Pt)) (st : AssocSt) : Prop :=
  (∀ q ∈ ps0 ++ st.pushes, q.1 < st.next_id) ∧
  (∀ t ∈ st.tracks,
      t.history = dropOld (pushedTo t.id (ps0 ++ st.pushes)) ∧
      pushedTo t.id (ps0 ++ st.pushes) ≠ [])

/-- History invariant at the tracker level, relative to the accumulated
ghost push log. -/
def TrackerHist (s : CentroidTracker) (ps : List (ℕ × Pt)) : Prop :=
  (∀ q ∈ ps, q.1 < s.next_id) ∧
  (∀ t ∈ s.tracks, t.history = dropOld (pushedTo t.id ps) ∧ pushedTo t.id ps ≠ [])

/-- Invariant of a full `runTracker` accumulator from a fresh tracker. -/
def RunInv (acc : CentroidTracker × List ℕ × List (ℕ × Pt)) : Prop :=
  TrackerWF acc.1 ∧ TrackerHist acc.1 acc.2.2 ∧ acc.2.1 = List.range' 0 acc.1.next_id

/-- The worker state after `k` consecutive failed connection attempts from a
fresh start (`k` at most the reconnect budget). -/
def failState (cfg : ProcConfig) (startDay : ℤ) (k : ℕ) : ProcState :=
  { initProcState cfg startDay with
    reconnect_count := k,
    acts := List.replicate (min k (cfg.reconnect_attempts - 1)) (.sleep cfg.reconnect_delay),
    info.status := if cfg.reconnect_attempts ≤ k then .error else .connecting }

/-! ### Concrete instances used by witnesses and counterexamples -/

/-- The tracker configuration of the specification's worked scenario:
`max_distance = 50`, `min_confidence = 0.4`, `max_age = 3`, `min_hits = 2`. -/
def scenarioCfg : TrackerConfig := ⟨50, 2/5, 3, 2⟩

/-- A degenerate box at (x, y) with the given confidence and class; its
centroid is (x, y). -/
def mkBox (x y conf : ℚ) (cls : ℤ) : Box := ⟨x, y, x, y, conf, cls⟩

/-- A confident class-0 box at (x, y). -/
def bAt (x y : ℚ) : Box := mkBox x y (1/2) 0

/-- A stream-processor configuration exercising the scenario tracker with
tracking enabled, one detected class, no decimation and a reconnect budget
of three attempts spaced five seconds apart. -/
def scenarioPCfg : ProcConfig := ⟨scenarioCfg, true, false, [0], 1, 640, false, true, 1000, 3, 5⟩

/-- Same processor configuration but with tracking disabled and a daily
frame budget of one saved frame. -/
def capPCfg : ProcConfig := ⟨scenarioCfg, false, false, [0], 1, 640, false, true, 1, 3, 5⟩

/-- Processor configuration whose daily frame budget is already exhausted at
zero saved frames. -/
def zeroCapPCfg : ProcConfig := ⟨scenarioCfg, false, false, [0], 1, 640, false, true, 0, 3, 5⟩

/-! ### General helper lemmas -/

theorem foldl_inv_mem {α β : Type _} (f : β → α → β) (P : β → Prop) :
    ∀ (l : List α), (∀ b a, a ∈ l → P b → P (f b a)) → ∀ b, P b → P (l.foldl f b)
  | [], _, _, hb => hb
  | a :: l, h, b, hb =>
      foldl_inv_mem f P l (fun b' a' ha' hb' => h b' a' (List.mem_cons_of_mem _ ha') hb')
        (f b a) (h b a (List.mem_cons_self _ _) hb)

theorem dropOld_short {l : List Pt} (h : l.length ≤ 30) : dropOld l = l := by
  unfold dropOld
  rw [Nat.sub_eq_zero_of_le h, List.drop_zero]

theorem trimHist_eq_dropOld (h : List Pt) : trimHist h = dropOld h := by
  unfold trimHist dropOld
  split
  · rfl
  · rename_i hle
    rw [Nat.sub_eq_zero_of_le (by omega), List.drop_zero]

theorem dropOld_length (l : List Pt) : (dropOld l).length = l.length - (l.length - 30) := by
  unfold dropOld
  rw [List.length_drop]

theorem dropOld_append_single (l : List Pt) (c : Pt) :
    dropOld (dropOld l ++ [c]) = dropOld (l ++ [c]) := by
  by_cases h : l.length ≤ 30
  · rw [dropOld_short h]
  · push_neg at h
    have h30 : (dropOld l).length = 30 := by rw [dropOld_length]; omega
    have e1 : (dropOld l ++ [c]).length - 30 = 1 := by
      rw [List.length_append, h30]; rfl
    have e2 : (l ++ [c]).length - 30 = l.length - 30 + 1 := by
      rw [List.length_append]
      have : [c].length = 1 := rfl
      omega
    show (dropOld l ++ [c]).drop ((dropOld l ++ [c]).length - 30) = dropOld (l ++ [c])
    rw [e1, List.drop_append_of_le_length (by omega)]
    unfold dropOld
    rw [List.drop_drop, e2,
      List.drop_append_of_le_length (by omega : l.length - 30 + 1 ≤ l.length)]

theorem pushedTo_append (i : ℕ) (ps qs : List (ℕ × Pt)) :
    pushedTo i (ps ++ qs) = pushedTo i ps ++ pushedTo i qs := by
  simp [pushedTo]

theorem pushedTo_single (i j : ℕ) (c : Pt) :
    pushedTo i [(j, c)] = if j = i then [c] else [] := by
  by_cases h : j = i <;> simp [pushedTo, h]

theorem pushedTo_eq_nil (i : ℕ) (ps : List (ℕ × Pt)) (h : ∀ q ∈ ps, q.1 ≠ i) :
    pushedTo i ps = [] := by
  induction ps with
  | nil => rfl
  | cons q ps ih =>
      have h1 : q.1 ≠ i := h q (List.mem_cons_self _ _)
      unfold pushedTo at *
      rw [List.filter_cons, if_neg (by simpa using h1)]
      exact ih fun r hr => h r (List.mem_cons_of_mem _ hr)

theorem scanTracks_mem (cfg : TrackerConfig) (c : Pt) (tracks : List Track) :
    ∀ p, scanTracks cfg c tracks = some p → ∃ u ∈ tracks, u.id = p.2 := by
  refine foldl_inv_mem (scanStep cfg c)
    (fun best => ∀ p, best = some p → ∃ u ∈ tracks, u.id = p.2) tracks ?_ none ?_
  · intro best t ht hbest p hp
    unfold scanStep at hp
    cases best with
    | none =>
        dsimp at hp
        split at hp
        · cases hp; exact ⟨t, ht, rfl⟩
        · cases hp
    | some q =>
        obtain ⟨m, j⟩ := q
        dsimp at hp
        split at hp
        · cases hp; exact ⟨t, ht, rfl⟩
        · exact hbest p hp
  · intro p hp
    cases hp

theorem mem_ageStep {m : ℕ} {l : List Track} {u : Track} :
    u ∈ ageStep m l ↔ ∃ v ∈ l, ¬ m < v.age ∧ u = { v with age := v.age + 1 } := by
  unfold ageStep
  rw [List.mem_filterMap]
  constructor
  · rintro ⟨v, hv, he⟩
    by_cases h : m < v.age
    · rw [if_pos h] at he; cases he
    · rw [if_neg h] at he; cases he; exact ⟨v, hv, h, rfl⟩
  · rintro ⟨v, hv, h, rfl⟩
    exact ⟨v, hv, by rw [if_neg h]⟩

theorem ageStep_sublist (m : ℕ) (l : List Track) :
    ((ageStep m l).map Track.id).Sublist (l.map Track.id) := by
  induction l with
  | nil => exact List.Sublist.refl _
  | cons a l ih =>
      unfold ageStep at *
      rw [List.filterMap_cons]
      by_cases h : m < a.age
      · rw [if_pos h, List.map_cons]
        exact ih.cons _
      · rw [if_neg h, List.map_cons, List.map_cons]
        exact ih.cons₂ _

theorem setTrack_map_id (l : List Track) (i : ℕ) (f : Track → Track)
    (hf : ∀ t, (f t).id = t.id) :
    (setTrack l i f).map Track.id = l.map Track.id := by
  unfold setTrack
  rw [List.map_map]
  refine List.map_congr_left fun t _ => ?_
  by_cases h : t.id = i <;> simp [h, hf]

theorem mem_setTrack {l : List Track} {i : ℕ} {f : Track → Track} {u : Track} :
    u ∈ setTrack l i f ↔ ∃ t ∈ l, u = if t.id = i then f t else t := by
  unfold setTrack
  rw [List.mem_map]
  constructor
  · rintro ⟨t, ht, rfl⟩; exact ⟨t, ht, rfl⟩
  · rintro ⟨t, ht, rfl⟩; exact ⟨t, ht, rfl⟩

theorem find?_setTrack (l : List Track) (i : ℕ) (f : Track → Track)
    (hf : ∀ t, (f t).id = t.id) :
    (setTrack l i f).find? (fun t => t.id = i) = (l.find? (fun t => t.id = i)).map f := by
  induction l with
  | nil => rfl
  | cons a l ih =>
      show ((if a.id = i then f a else a) :: setTrack l i f).find? _ = _
      by_cases h : a.id = i
      · rw [if_pos h, List.find?_cons_of_pos _ (by simp [hf, h]),
          List.find?_cons_of_pos _ (by simp [h])]
        rfl
      · rw [if_neg h, List.find?_cons_of_neg _ (by simp [h]),
          List.find?_cons_of_neg _ (by simp [h])]
        exact ih

/-! ### Preservation of the association-loop invariants -/

theorem assocStep_core (cfg : TrackerConfig) (en : Bool) (n0 : ℕ) (aged : List Track)
    (st : AssocSt) (b : Box) (h : AssocCore n0 aged st) :
    AssocCore n0 aged (assocStep cfg en st b) := by
  obtain ⟨h1, h2, h3, h4, h5⟩ := h
  unfold assocStep
  by_cases he : st.err = true
  · rw [if_pos he]; exact ⟨h1, h2, h3, h4, h5⟩
  · rw [if_neg he]
    cases hscan : scanTracks cfg b.centroid st.tracks with
    | none =>
        simp only [hscan]
        refine ⟨Nat.le_succ_of_le h1, ?_, ?_, ?_, ?_⟩
        · intro t ht
          rcases List.mem_append.mp ht with hm | hm
          · exact Nat.lt_succ_of_lt (h2 t hm)
          · rw [List.mem_singleton.mp hm]
            exact Nat.lt_succ_self _
        · rw [List.map_append]
          refine h3.append (List.nodup_singleton _) ?_
          intro x hx hx'
          obtain ⟨t, ht, rfl⟩ := List.mem_map.mp hx
          simp only [List.map_cons, List.map_nil, List.mem_singleton] at hx'
          have := h2 _ ht
          omega
        · intro t ht
          rcases List.mem_append.mp ht with hm | hm
          · exact h4 t hm
          · rw [List.mem_singleton.mp hm]
            exact Or.inr ⟨rfl, h1⟩
        · rw [h5]
          have e : st.next_id + 1 - n0 = (st.next_id - n0) + 1 := by omega
          rw [e, List.range'_concat, Nat.one_mul,
            (by omega : n0 + (st.next_id - n0) = st.next_id)]
    | some p =>
        obtain ⟨d, i⟩ := p
        simp only [hscan]
        cases hfind : st.tracks.find? (fun t => t.id = i) with
        | none => exact ⟨h1, h2, h3, h4, h5⟩
        | some t =>
            simp only [hfind]
            refine ⟨h1, ?_, ?_, ?_, h5⟩
            · intro u hu
              obtain ⟨v, hv, rfl⟩ := mem_setTrack.mp hu
              by_cases hvi : v.id = i
              · rw [if_pos hvi]; exact h2 v hv
              · rw [if_neg hvi]; exact h2 v hv
            · rw [setTrack_map_id st.tracks i
                (fun u => { u with centroid := b.centroid, hits := u.hits + 1,
                                   history := trimHist (u.history ++ [b.centroid]) })
                (fun u => rfl)]
              exact h3
            · intro u hu
              obtain ⟨v, hv, rfl⟩ := mem_setTrack.mp hu
              by_cases hvi : v.id = i
              · rw [if_pos hvi]
                rcases h4 v hv with ⟨w, hw, hid, hage⟩ | ⟨hage, hle⟩
                · exact Or.inl ⟨w, hw, hid, hage⟩
                · exact Or.inr ⟨hage, hle⟩
              · rw [if_neg hvi]; exact h4 v hv

theorem assocStep_hist (cfg : TrackerConfig) (en : Bool) (n0 : ℕ) (aged : List Track)
    (ps0 : List (ℕ × Pt)) (st : AssocSt) (b : Box)
    (hc : AssocCore n0 aged st) (h : AssocHist ps0 st) :
    AssocHist ps0 (assocStep cfg en st b) := by
  obtain ⟨_, h2, _, _, _⟩ := hc
  obtain ⟨hp, hh⟩ := h
  unfold assocStep
  by_cases he : st.err = true
  · rw [if_pos he]; exact ⟨hp, hh⟩
  · rw [if_neg he]
    cases hscan : scanTracks cfg b.centroid st.tracks with
    | none =>
        simp only [hscan]
        constructor
        · intro q hq
          rw [← List.append_assoc] at hq
          rcases List.mem_append.mp hq with hm | hm
          · exact Nat.lt_succ_of_lt (hp q hm)
          · rw [List.mem_singleton.mp hm]
            exact Nat.lt_succ_self _
        · intro u hu
          have hnil : pushedTo st.next_id (ps0 ++ st.pushes) = [] :=
            pushedTo_eq_nil _ _ fun q hq => Nat.ne_of_lt (hp q hq)
          rcases List.mem_append.mp hu with hm | hm
          · have hlt : u.id < st.next_id := h2 u hm
            have : pushedTo u.id (ps0 ++ (st.pushes ++ [(st.next_id, b.centroid)])) =
                pushedTo u.id (ps0 ++ st.pushes) := by
              rw [← List.append_assoc, pushedTo_append, pushedTo_single,
                if_neg (Nat.ne_of_lt hlt).symm, List.append_nil]
            rw [this]
            exact hh u hm
          · rw [List.mem_singleton.mp hm]
            have : pushedTo st.next_id (ps0 ++ (st.pushes ++ [(st.next_id, b.centroid)])) =
                [b.centroid] := by
              rw [← List.append_assoc, pushedTo_append, hnil, pushedTo_single, if_pos rfl,
                List.nil_append]
            rw [this]
            refine ⟨?_, by simp⟩
            rw [dropOld_short (by simp)]
    | some p =>
        obtain ⟨d, i⟩ := p
        simp only [hscan]
        cases hfind : st.tracks.find? (fun t => t.id = i) with
        | none => exact ⟨hp, hh⟩
        | some t =>
            simp only [hfind]
            have htmem : t ∈ st.tracks := List.mem_of_find?_eq_some hfind
            have htid : t.id = i := by simpa using List.find?_some hfind
            have hilt : i < st.next_id := htid ▸ h2 t htmem
            constructor
            · intro q hq
              rw [← List.append_assoc] at hq
              rcases List.mem_append.mp hq with hm | hm
              · exact hp q hm
              · rw [List.mem_singleton.mp hm]
                exact hilt
            · intro u hu
              obtain ⟨v, hv, rfl⟩ := mem_setTrack.mp hu
              by_cases hvi : v.id = i
              · rw [if_pos hvi]
                have hps : pushedTo v.id (ps0 ++ (st.pushes ++ [(i, b.centroid)])) =
                    pushedTo v.id (ps0 ++ st.pushes) ++ [b.centroid] := by
                  rw [← List.append_assoc, pushedTo_append, pushedTo_single, if_pos hvi.symm]
                obtain ⟨hh1, _⟩ := hh v hv
                refine ⟨?_, by simp [hps]⟩
                show trimHist (v.history ++ [b.centroid]) = _
                rw [hps, hh1, trimHist_eq_dropOld, dropOld_append_single]
              · rw [if_neg hvi]
                have hps : pushedTo v.id (ps0 ++ (st.pushes ++ [(i, b.centroid)])) =
                    pushedTo v.id (ps0 ++ st.pushes) := by
                  rw [← List.append_assoc, pushedTo_append, pushedTo_single,
                    if_neg (fun e => hvi e.symm), List.append_nil]
                rw [hps]
                exact hh v hv

/-! ### Update-level and run-level invariants -/

theorem update_core (cfg : TrackerConfig) (en : Bool) (s : CentroidTracker)
    (boxes : List Box) (hWF : TrackerWF s) :
    TrackerWF (CentroidTracker.update cfg en s boxes).state ∧
    s.next_id ≤ (CentroidTracker.update cfg en s boxes).state.next_id ∧
    (CentroidTracker.update cfg en s boxes).created =
      List.range' s.next_id ((CentroidTracker.update cfg en s boxes).state.next_id - s.next_id) ∧
    (∀ t' ∈ (CentroidTracker.update cfg en s boxes).state.tracks,
       (∃ u ∈ ageStep cfg.max_age s.tracks, t'.id = u.id ∧ t'.age = u.age) ∨
       (t'.age = 0 ∧ s.next_id ≤ t'.id)) := by
  obtain ⟨hid, hnd⟩ := hWF
  have hbase : AssocCore s.next_id (ageStep cfg.max_age s.tracks)
      ⟨ageStep cfg.max_age s.tracks, s.next_id, (s.tracks.getLast?).map (·.hits),
        [], [], false, [], []⟩ := by
    refine ⟨le_refl _, ?_, ?_, ?_, by rw [Nat.sub_self, List.range'_zero]⟩
    · intro t ht
      obtain ⟨v, hv, _, rfl⟩ := mem_ageStep.mp ht
      exact hid v hv
    · exact hnd.sublist (ageStep_sublist _ _)
    · intro t ht
      exact Or.inl ⟨t, ht, rfl, rfl⟩
  have hfin := foldl_inv_mem (assocStep cfg en)
    (AssocCore s.next_id (ageStep cfg.max_age s.tracks)) (newCentroids cfg boxes)
    (fun st a _ h => assocStep_core cfg en _ _ st a h) _ hbase
  obtain ⟨f1, f2, f3, f4, f5⟩ := hfin
  exact ⟨⟨f2, f3⟩, f1, f5, f4⟩

theorem update_hist (cfg : TrackerConfig) (en : Bool) (s : CentroidTracker)
    (boxes : List Box) (ps : List (ℕ × Pt)) (hWF : TrackerWF s) (hh : TrackerHist s ps) :
    TrackerHist (CentroidTracker.update cfg en s boxes).state
      (ps ++ (CentroidTracker.update cfg en s boxes).pushes) := by
  obtain ⟨hid, hnd⟩ := hWF
  obtain ⟨hp, hht⟩ := hh
  have hbase : AssocCore s.next_id (ageStep cfg.max_age s.tracks)
        ⟨ageStep cfg.max_age s.tracks, s.next_id, (s.tracks.getLast?).map (·.hits),
          [], [], false, [], []⟩ ∧
      AssocHist ps
        ⟨ageStep cfg.max_age s.tracks, s.next_id, (s.tracks.getLast?).map (·.hits),
          [], [], false, [], []⟩ := by
    refine ⟨⟨le_refl _, ?_, ?_, ?_, by rw [Nat.sub_self, List.range'_zero]⟩, ?_, ?_⟩
    · intro t ht
      obtain ⟨v, hv, _, rfl⟩ := mem_ageStep.mp ht
      exact hid v hv
    · exact hnd.sublist (ageStep_sublist _ _)
    · intro t ht
      exact Or.inl ⟨t, ht, rfl, rfl⟩
    · intro q hq
      rw [List.append_nil] at hq
      exact hp q hq
    · intro t ht
      obtain ⟨v, hv, _, rfl⟩ := mem_ageStep.mp ht
      rw [List.append_nil]
      exact hht v hv
  have hfin := foldl_inv_mem (assocStep cfg en)
    (fun st => AssocCore s.next_id (ageStep cfg.max_age s.tracks) st ∧ AssocHist ps st)
    (newCentroids cfg boxes)
    (fun st a _ h => ⟨assocStep_core cfg en _ _ st a h.1,
      assocStep_hist cfg en _ _ ps st a h.1 h.2⟩) _ hbase
  exact hfin.2

theorem runTracker_inv (cfg : TrackerConfig) (en : Bool) :
    ∀ (cycles : List (List Box)) (acc : CentroidTracker × List ℕ × List (ℕ × Pt)),
      RunInv acc → RunInv (runTracker cfg en acc cycles)
  | [], (s, cs, ps), h => h
  | boxes :: rest, (s, cs, ps), h => by
      obtain ⟨hwf, hh, hcs⟩ := h
      dsimp only at hwf hh hcs
      have hc := update_core cfg en s boxes hwf
      have hhi := update_hist cfg en s boxes ps hwf hh
      refine runTracker_inv cfg en rest _ ⟨hc.1, hhi, ?_⟩
      rw [hcs, hc.2.2.1]
      have e := List.range'_append 0 s.next_id
        ((CentroidTracker.update cfg en s boxes).state.next_id - s.next_id) 1
      rw [Nat.zero_add, Nat.one_mul] at e
      rw [e, (by omega :
        (CentroidTracker.update cfg en s boxes).state.next_id - s.next_id + s.next_id =
          (CentroidTracker.update cfg en s boxes).state.next_id)]

/-- The fresh accumulator satisfies the run invariant. -/
theorem runInv_init : RunInv (CentroidTracker.init, [], []) :=
  ⟨⟨fun t ht => absurd ht (List.not_mem_nil t), List.nodup_nil⟩,
   ⟨fun q hq => absurd hq (List.not_mem_nil q), fun t ht => absurd ht (List.not_mem_nil t)⟩,
   rfl⟩

/-! ### Stream-processor helper lemmas -/

theorem resultsLoop_reconnect (cfg : ProcConfig) (rs : List (List Box)) :
    ∀ (s : ProcState) (saved : Bool),
      (resultsLoop cfg s saved rs).1.reconnect_count = s.reconnect_count := by
  induction rs with
  | nil => intro s saved; rfl
  | cons boxes rest ih =>
      intro s saved
      simp only [resultsLoop]
      split
      · exact ih s saved
      · cases hu : (CentroidTracker.update cfg.tracking cfg.trackingEnabled s.tracker boxes).ret with
        | none => simp only [hu]
        | some dets =>
            simp only [hu]
            split <;> split
            · rfl
            · exact ih _ _
            · rfl
            · exact ih _ _

theorem stepFrame_reconnect (cfg : ProcConfig) (s : ProcState) (f : FrameEvt) :
    (stepFrame cfg s f).1.reconnect_count = s.reconnect_count := by
  cases f with
  | readFail => rfl
  | frame day width results =>
      simp only [stepFrame]
      split
      · rfl
      · split
        · rfl
        · split
          · rename_i s2 sv heq
            have h2 := congrArg (fun r : ProcState × Bool × Bool => r.1) heq
            simp only [] at h2
            show s2.reconnect_count = s.reconnect_count
            rw [← h2]
            exact resultsLoop_reconnect cfg results _ false
          · rename_i s2 sv heq
            have h2 := congrArg (fun r : ProcState × Bool × Bool => r.1) heq
            simp only [] at h2
            show s2.reconnect_count = s.reconnect_count
            rw [← h2]
            exact resultsLoop_reconnect cfg results _ false

theorem runFrames_reconnect (cfg : ProcConfig) (fs : List FrameEvt) :
    ∀ (s : ProcState), (runFrames cfg s fs).1.reconnect_count = s.reconnect_count := by
  induction fs with
  | nil => intro s; rfl
  | cons f rest ih =>
      intro s
      simp only [runFrames]
      split
      · rfl
      · split
        · exact stepFrame_reconnect cfg s f
        · rw [ih]
          exact stepFrame_reconnect cfg s f

theorem exceptPath_failState (cfg : ProcConfig) (d : ℤ) (j : ℕ)
    (hj : j < cfg.reconnect_attempts) :
    exceptPath cfg (failState cfg d j) = failState cfg d (j + 1) := by
  by_cases h : j + 1 < cfg.reconnect_attempts
  · have e1 : min j (cfg.reconnect_attempts - 1) = j := by omega
    have e2 : min (j + 1) (cfg.reconnect_attempts - 1) = j + 1 := by omega
    simp [exceptPath, failState, initProcState, h, e1, e2,
      (by omega : ¬ cfg.reconnect_attempts ≤ j),
      (by omega : ¬ cfg.reconnect_attempts ≤ j + 1), ← List.replicate_succ']
    rw [if_neg (by omega : ¬ cfg.reconnect_attempts ≤ j),
      if_neg (by omega : ¬ cfg.reconnect_attempts ≤ j + 1)]
  · have e1 : min j (cfg.reconnect_attempts - 1) = j := by omega
    have e2 : min (j + 1) (cfg.reconnect_attempts - 1) = j := by omega
    simp [exceptPath, failState, initProcState, h, e1, e2,
      (by omega : ¬ cfg.reconnect_attempts ≤ j),
      (by omega : cfg.reconnect_attempts ≤ j + 1)]
    omega

theorem runConns_openFail (cfg : ProcConfig) (d : ℤ) :
    ∀ (k j : ℕ), j + k ≤ cfg.reconnect_attempts →
      runConns cfg (failState cfg d j) (List.replicate k .openFail) =
        (failState cfg d (j + k), decide (cfg.reconnect_attempts ≤ j + k))
  | 0, j, h => rfl
  | k + 1, j, h => by
      rw [List.replicate_succ]
      show runConns cfg (failState cfg d j) (.openFail :: List.replicate k .openFail) = _
      rw [runConns]
      rw [if_neg (show ¬ cfg.reconnect_attempts ≤ (failState cfg d j).reconnect_count from
        show ¬ cfg.reconnect_attempts ≤ j by omega)]
      show runConns cfg (exceptPath cfg (failState cfg d j)) (List.replicate k .openFail) = _
      rw [exceptPath_failState cfg d j (by omega),
        runConns_openFail cfg d k (j + 1) (by omega),
        (by omega : j + 1 + k = j + (k + 1))]

/-! ### Hits-per-assignment invariant (used for C4) -/

theorem assocStep_hits_count (cfg : TrackerConfig) (en : Bool) (j h0 : ℕ)
    (st : AssocSt) (b : Box)
    (h : (∀ u ∈ st.tracks, u.id < st.next_id) ∧ j < st.next_id ∧
         (∀ u ∈ st.tracks, u.id = j →
            u.hits = h0 + st.assigned.countP (fun p => p.1 = j))) :
    (∀ u ∈ (assocStep cfg en st b).tracks, u.id < (assocStep cfg en st b).next_id) ∧
    j < (assocStep cfg en st b).next_id ∧
    (∀ u ∈ (assocStep cfg en st b).tracks, u.id = j →
       u.hits = h0 + (assocStep cfg en st b).assigned.countP (fun p => p.1 = j)) := by
  obtain ⟨h1, h2, h3⟩ := h
  unfold assocStep
  by_cases he : st.err = true
  · rw [if_pos he]; exact ⟨h1, h2, h3⟩
  · rw [if_neg he]
    cases hscan : scanTracks cfg b.centroid st.tracks with
    | none =>
        simp only [hscan]
        refine ⟨?_, Nat.lt_succ_of_lt h2, ?_⟩
        · intro u hu
          rcases List.mem_append.mp hu with hm | hm
          · exact Nat.lt_succ_of_lt (h1 u hm)
          · rw [List.mem_singleton.mp hm]
            exact Nat.lt_succ_self _
        · intro u hu huj
          have hne : ¬ st.next_id = j := by omega
          have hcount : (st.assigned ++ [(st.next_id, b)]).countP
                (fun p : ℕ × Box => p.1 = j) =
              st.assigned.countP (fun p : ℕ × Box => p.1 = j) := by
            rw [List.countP_append]
            simp [hne]
          rw [hcount]
          rcases List.mem_append.mp hu with hm | hm
          · exact h3 u hm huj
          · rw [List.mem_singleton.mp hm] at huj
            exact absurd huj hne
    | some p =>
        obtain ⟨d, i⟩ := p
        simp only [hscan]
        cases hfind : st.tracks.find? (fun t => t.id = i) with
        | none => exact ⟨h1, h2, h3⟩
        | some t =>
            simp only [hfind]
            refine ⟨?_, h2, ?_⟩
            · intro u hu
              obtain ⟨v, hv, rfl⟩ := mem_setTrack.mp hu
              by_cases hvi : v.id = i
              · rw [if_pos hvi]; exact h1 v hv
              · rw [if_neg hvi]; exact h1 v hv
            · intro u hu huj
              obtain ⟨v, hv, rfl⟩ := mem_setTrack.mp hu
              by_cases hij : i = j
              · rw [List.countP_append]
                by_cases hvi : v.id = i
                · rw [if_pos hvi] at huj ⊢
                  have : v.hits = h0 + st.assigned.countP (fun p => p.1 = j) :=
                    h3 v hv (by rw [← huj])
                  simp [hij, this]
                  omega
                · rw [if_neg hvi] at huj ⊢
                  exact absurd (huj.trans hij.symm) hvi
              · rw [List.countP_append]
                have e0 : [(i, b)].countP (fun p : ℕ × Box => p.1 = j) = 0 := by
                  simp [hij]
                rw [e0, Nat.add_zero]
                by_cases hvi : v.id = i
                · rw [if_pos hvi] at huj
                  exact absurd (hvi.symm.trans huj) hij
                · rw [if_neg hvi] at huj ⊢
                  exact h3 v hv huj
/-! ### Claim C1 -/

/-- C1 (amended): in every `update` cycle of a well-formed tracker state,
every track that already existed and survives the cycle ends it with its
age incremented by exactly one — whether or not a detection matched it; a
match does not reset `age` to 0.  Only tracks created during the cycle
have age 0. -/
theorem C1_age_increments_every_cycle (cfg : TrackerConfig) (en : Bool)
    (s : CentroidTracker) (boxes : List Box) (hWF : TrackerWF s) :
    (∀ t ∈ s.tracks, ∀ t' ∈ (CentroidTracker.update cfg en s boxes).state.tracks,
        t'.id = t.id → t'.age = t.age + 1) ∧
    (∀ t' ∈ (CentroidTracker.update cfg en s boxes).state.tracks,
        (∀ t ∈ s.tracks, t.id ≠ t'.id) → t'.age = 0) := by
  obtain ⟨-, -, -, hdisj⟩ := update_core cfg en s boxes hWF
  constructor
  · intro t ht t' ht' hid
    rcases hdisj t' ht' with ⟨u, hu, hid', hage⟩ | ⟨_, hge⟩
    · obtain ⟨v, hv, -, rfl⟩ := mem_ageStep.mp hu
      have hv_t : v = t :=
        List.inj_on_of_nodup_map hWF.2 hv ht (hid'.symm.trans hid)
      rw [hage, hv_t]
    · have := hWF.1 t ht
      omega
  · intro t' ht' hnone
    rcases hdisj t' ht' with ⟨u, hu, hid', -⟩ | ⟨h0, -⟩
    · obtain ⟨v, hv, -, rfl⟩ := mem_ageStep.mp hu
      exact absurd hid'.symm (hnone v hv)
    · exact h0

/-- C1 witness for `C1_age_increments_every_cycle`: a concrete one-track
state run through one empty cycle; the surviving track's age goes from 0
to 1. -/
theorem C1_witness :
    TrackerWF ⟨1, [⟨0, (10, 10), 0, 1, [(10, 10)]⟩], [], 1⟩ ∧
    (⟨0, (10, 10), 0, 1, [(10, 10)]⟩ : Track) ∈
      (⟨1, [⟨0, (10, 10), 0, 1, [(10, 10)]⟩], [], 1⟩ : CentroidTracker).tracks ∧
    (⟨0, (10, 10), 1, 1, [(10, 10)]⟩ : Track) ∈
      (CentroidTracker.update scenarioCfg false
        ⟨1, [⟨0, (10, 10), 0, 1, [(10, 10)]⟩], [], 1⟩ []).state.tracks ∧
    (⟨0, (10, 10), 1, 1, [(10, 10)]⟩ : Track).age =
      (⟨0, (10, 10), 0, 1, [(10, 10)]⟩ : Track).age + 1 := by
  have hWF : TrackerWF ⟨1, [⟨0, (10, 10), 0, 1, [(10, 10)]⟩], [], 1⟩ := by
    constructor
    · intro t ht
      rw [List.mem_singleton.mp ht]
      norm_num
    · simp [TrackerWF]
  have hmem : (⟨0, (10, 10), 0, 1, [(10, 10)]⟩ : Track) ∈
      (⟨1, [⟨0, (10, 10), 0, 1, [(10, 10)]⟩], [], 1⟩ : CentroidTracker).tracks := by
    simp
  have hmem' : (⟨0, (10, 10), 1, 1, [(10, 10)]⟩ : Track) ∈
      (CentroidTracker.update scenarioCfg false
        ⟨1, [⟨0, (10, 10), 0, 1, [(10, 10)]⟩], [], 1⟩ []).state.tracks := by
    norm_num [CentroidTracker.update, newCentroids, scenarioCfg, ageStep]
  exact ⟨hWF, hmem, hmem',
    (C1_age_increments_every_cycle scenarioCfg false _ [] hWF).1 _ hmem _ hmem' rfl⟩

/-- C1 counterexample: the claim's "resets to 0 on match" is false.  Track 0
is matched in the second cycle (it is the cycle's returned assignment), yet
it ends that cycle with age 1, not 0. -/
theorem C1_counterexample :
    ((CentroidTracker.update scenarioCfg false
        (CentroidTracker.update scenarioCfg false CentroidTracker.init [bAt 10 10]).state
        [bAt 10 10]).ret = some [(0, bAt 10 10)]) ∧
    ((CentroidTracker.update scenarioCfg false
        (CentroidTracker.update scenarioCfg false CentroidTracker.init [bAt 10 10]).state
        [bAt 10 10]).state.tracks.map Track.age = [1]) := by
  constructor <;>
    norm_num [CentroidTracker.update, CentroidTracker.init, newCentroids, bAt, mkBox,
      scenarioCfg, ageStep, assocStep, scanTracks, scanStep, saveCheck, Box.centroid,
      trimHist, setTrack, dist2, List.find?, List.foldl, List.filterMap, List.filter]

/-! ### Claim C3 -/

/-- C3 (amended): a track whose stored age exceeds `max_age` at the start of
an update cycle is evicted during that cycle and its id does not reappear;
since ages advance by one per cycle, a track is therefore absent from the
live set on the update cycle immediately after its age first exceeds
`max_age`.  The claim's worked example is off by one cycle: with
`max_age = 3` the track is still present after the cycle where its age
becomes 4 and is evicted only by the following cycle's update. -/
theorem C3_eviction_next_cycle (cfg : TrackerConfig) (en : Bool)
    (s : CentroidTracker) (boxes : List Box) (t : Track) (hWF : TrackerWF s)
    (ht : t ∈ s.tracks) (hage : cfg.max_age < t.age) :
    ∀ t' ∈ (CentroidTracker.update cfg en s boxes).state.tracks, t'.id ≠ t.id := by
  obtain ⟨-, -, -, hdisj⟩ := update_core cfg en s boxes hWF
  intro t' ht' heq
  rcases hdisj t' ht' with ⟨u, hu, hid', -⟩ | ⟨-, hge⟩
  · obtain ⟨v, hv, hnage, rfl⟩ := mem_ageStep.mp hu
    have hv_t : v = t :=
      List.inj_on_of_nodup_map hWF.2 hv ht (hid'.symm.trans heq)
    rw [hv_t] at hnage
    omega
  · have := hWF.1 t ht
    omega

/-- C3 witness for `C3_eviction_next_cycle`: a concrete track with age 4 and
`max_age = 3` is gone after one further update. -/
theorem C3_witness :
    TrackerWF ⟨1, [⟨0, (10, 10), 4, 1, [(10, 10)]⟩], [], 5⟩ ∧
    (⟨0, (10, 10), 4, 1, [(10, 10)]⟩ : Track) ∈
      (⟨1, [⟨0, (10, 10), 4, 1, [(10, 10)]⟩], [], 5⟩ : CentroidTracker).tracks ∧
    scenarioCfg.max_age < (⟨0, (10, 10), 4, 1, [(10, 10)]⟩ : Track).age ∧
    (∀ t' ∈ (CentroidTracker.update scenarioCfg false
        ⟨1, [⟨0, (10, 10), 4, 1, [(10, 10)]⟩], [], 5⟩ []).state.tracks,
      t'.id ≠ (⟨0, (10, 10), 4, 1, [(10, 10)]⟩ : Track).id) := by
  have hWF : TrackerWF ⟨1, [⟨0, (10, 10), 4, 1, [(10, 10)]⟩], [], 5⟩ := by
    constructor
    · intro t ht
      rw [List.mem_singleton.mp ht]
      norm_num
    · simp [TrackerWF]
  have hmem : (⟨0, (10, 10), 4, 1, [(10, 10)]⟩ : Track) ∈
      (⟨1, [⟨0, (10, 10), 4, 1, [(10, 10)]⟩], [], 5⟩ : CentroidTracker).tracks := by
    simp
  have hage : scenarioCfg.max_age < (⟨0, (10, 10), 4, 1, [(10, 10)]⟩ : Track).age := by
    norm_num [scenarioCfg]
  exact ⟨hWF, hmem, hage,
    C3_eviction_next_cycle scenarioCfg false _ [] _ hWF hmem hage⟩

/-- C3 counterexample to the claim's worked example: with `max_age = 3`, a
track created and then starved of detections is present after the cycle
where its age is 3, is STILL present (age 4) after the next cycle's update
— where the claim's example says it is evicted — and disappears only one
cycle later. -/
theorem C3_counterexample :
    ((runTracker scenarioCfg false (CentroidTracker.init, [], [])
        [[bAt 10 10], [], [], []]).1.tracks.map (fun t => (t.id, t.age)) = [(0, 3)]) ∧
    ((runTracker scenarioCfg false (CentroidTracker.init, [], [])
        [[bAt 10 10], [], [], [], []]).1.tracks.map (fun t => (t.id, t.age)) = [(0, 4)]) ∧
    ((runTracker scenarioCfg false (CentroidTracker.init, [], [])
        [[bAt 10 10], [], [], [], [], []]).1.tracks = []) := by
  refine ⟨?_, ?_, ?_⟩ <;>
    norm_num [runTracker, CentroidTracker.update, CentroidTracker.init, newCentroids,
      bAt, mkBox, scenarioCfg, ageStep, assocStep, scanTracks, scanStep, saveCheck,
      Box.centroid, trimHist, setTrack, dist2, List.find?, List.foldl, List.filterMap,
      List.filter]
/-! ### Claim C4 -/

/-- C4 (amended): tracks are not exclusively claimed within a cycle.  Each
detection, in input order, matches the nearest live track within
`max_distance` at that moment, with no claimed-set: several detections in
one cycle may be assigned the same track id.  The track's hit counter then
advances once per assignment: a surviving track's hits after the cycle
equal its hits before plus the number of returned assignment pairs that
carry its id. -/
theorem C4_first_come_not_exclusive (cfg : TrackerConfig) (en : Bool)
    (s : CentroidTracker) (boxes : List Box) (t : Track) (l : List (ℕ × Box))
    (hWF : TrackerWF s) (ht : t ∈ s.tracks)
    (hret : (CentroidTracker.update cfg en s boxes).ret = some l) :
    ∀ t' ∈ (CentroidTracker.update cfg en s boxes).state.tracks, t'.id = t.id →
      t'.hits = t.hits + l.countP (fun p => p.1 = t.id) := by
  intro t' ht' hid
  have hbase : (∀ u ∈ ageStep cfg.max_age s.tracks, u.id < s.next_id) ∧
      t.id < s.next_id ∧
      (∀ u ∈ ageStep cfg.max_age s.tracks, u.id = t.id →
        u.hits = t.hits + ([] : List (ℕ × Box)).countP (fun p => p.1 = t.id)) := by
    refine ⟨?_, hWF.1 t ht, ?_⟩
    · intro u hu
      obtain ⟨v, hv, -, rfl⟩ := mem_ageStep.mp hu
      exact hWF.1 v hv
    · intro u hu huj
      obtain ⟨v, hv, -, rfl⟩ := mem_ageStep.mp hu
      have hv_t : v = t := List.inj_on_of_nodup_map hWF.2 hv ht huj
      rw [hv_t]
      simp
  have hfin := foldl_inv_mem (assocStep cfg en)
    (fun st => (∀ u ∈ st.tracks, u.id < st.next_id) ∧ t.id < st.next_id ∧
        (∀ u ∈ st.tracks, u.id = t.id →
          u.hits = t.hits + st.assigned.countP (fun p => p.1 = t.id)))
    (newCentroids cfg boxes)
    (fun st a _ h => assocStep_hits_count cfg en t.id t.hits st a h)
    ⟨ageStep cfg.max_age s.tracks, s.next_id, (s.tracks.getLast?).map (·.hits),
      [], [], false, [], []⟩ hbase
  simp only [CentroidTracker.update] at hret ht'
  by_cases herr : (List.foldl (assocStep cfg en)
      ⟨ageStep cfg.max_age s.tracks, s.next_id, (s.tracks.getLast?).map (·.hits),
        [], [], false, [], []⟩ (newCentroids cfg boxes)).err = true
  · rw [if_pos herr] at hret
    cases hret
  · rw [if_neg herr] at hret
    cases hret
    exact hfin.2.2 t' ht' hid

/-- C4 witness for `C4_first_come_not_exclusive`, at the concrete scenario
of the counterexample: two detections both assigned to track 0 in the same
cycle, whose hits therefore advance from 1 to 3. -/
theorem C4_witness :
    TrackerWF ⟨1, [⟨0, (0, 0), 0, 1, [(0, 0)]⟩], [], 1⟩ ∧
    (⟨0, (0, 0), 0, 1, [(0, 0)]⟩ : Track) ∈
      (⟨1, [⟨0, (0, 0), 0, 1, [(0, 0)]⟩], [], 1⟩ : CentroidTracker).tracks ∧
    ((CentroidTracker.update scenarioCfg false
        ⟨1, [⟨0, (0, 0), 0, 1, [(0, 0)]⟩], [], 1⟩ [bAt 1 0, bAt 2 0]).ret =
      some [(0, bAt 1 0), (0, bAt 2 0)]) ∧
    (∀ t' ∈ (CentroidTracker.update scenarioCfg false
        ⟨1, [⟨0, (0, 0), 0, 1, [(0, 0)]⟩], [], 1⟩ [bAt 1 0, bAt 2 0]).state.tracks,
      t'.id = 0 →
      t'.hits = 1 + ([(0, bAt 1 0), (0, bAt 2 0)] : List (ℕ × Box)).countP
        (fun p => p.1 = 0)) := by
  have hWF : TrackerWF ⟨1, [⟨0, (0, 0), 0, 1, [(0, 0)]⟩], [], 1⟩ := by
    constructor
    · intro t ht
      rw [List.mem_singleton.mp ht]
      norm_num
    · simp [TrackerWF]
  have hmem : (⟨0, (0, 0), 0, 1, [(0, 0)]⟩ : Track) ∈
      (⟨1, [⟨0, (0, 0), 0, 1, [(0, 0)]⟩], [], 1⟩ : CentroidTracker).tracks := by simp
  have hret : (CentroidTracker.update scenarioCfg false
      ⟨1, [⟨0, (0, 0), 0, 1, [(0, 0)]⟩], [], 1⟩ [bAt 1 0, bAt 2 0]).ret =
      some [(0, bAt 1 0), (0, bAt 2 0)] := by
    norm_num [CentroidTracker.update, newCentroids, bAt, mkBox, scenarioCfg, ageStep,
      assocStep, scanTracks, scanStep, saveCheck, Box.centroid, trimHist, setTrack,
      dist2, List.find?, List.foldl, List.filterMap, List.filter]
  exact ⟨hWF, hmem, hret,
    C4_first_come_not_exclusive scenarioCfg false _ [bAt 1 0, bAt 2 0] _ _ hWF hmem hret⟩

/-- C4 counterexample: with one live track at (0, 0) and two detections at
(1, 0) and (2, 0), both within `max_distance` of it, BOTH detections are
assigned track id 0 in the same cycle — the second competing detection is
neither given another track nor a fresh one, contradicting the claimed
at-most-one-claim rule. -/
theorem C4_counterexample :
    (CentroidTracker.update scenarioCfg false
        (CentroidTracker.update scenarioCfg false CentroidTracker.init [bAt 0 0]).state
        [bAt 1 0, bAt 2 0]).ret.map (List.map Prod.fst) = some [0, 0] := by
  norm_num [CentroidTracker.update, CentroidTracker.init, newCentroids, bAt, mkBox,
    scenarioCfg, ageStep, assocStep, scanTracks, scanStep, saveCheck, Box.centroid,
    trimHist, setTrack, dist2, List.find?, List.foldl, List.filterMap, List.filter]

/-! ### Claim C5 -/

/-- C5: for every sequence of update cycles fed to a fresh tracker, the ids
handed to newly created tracks are exactly the id interval consumed by the
cycle, so over the whole run the creation log is strictly increasing — ids
are never reused, even after eviction. -/
theorem C5_track_ids_strictly_increasing (cfg : TrackerConfig) (en : Bool)
    (cycles : List (List Box)) :
    List.Pairwise (· < ·)
      (runTracker cfg en (CentroidTracker.init, [], []) cycles).2.1 := by
  obtain ⟨-, -, hcs⟩ := runTracker_inv cfg en cycles _ runInv_init
  rw [hcs]
  exact List.pairwise_lt_range' _ _
/-! ### Claim C6 -/

/-- C6: every live track's history is exactly the suffix of the most recent
30 centroids ever pushed onto it, in temporal order (oldest first); in
particular, once a track has been pushed more than 30 times its history
length stays pinned at exactly 30.  A track created by a detection starts
with history equal to the single-element list of the creating detection's
centroid (second conjunct, main.py line 241). -/
theorem C6_history_bound (cfg : TrackerConfig) (en : Bool) :
    (∀ (cycles : List (List Box)),
      ∀ t ∈ (runTracker cfg en (CentroidTracker.init, [], []) cycles).1.tracks,
        t.history =
          dropOld (pushedTo t.id
            (runTracker cfg en (CentroidTracker.init, [], []) cycles).2.2) ∧
        pushedTo t.id (runTracker cfg en (CentroidTracker.init, [], []) cycles).2.2 ≠ [] ∧
        (30 < (pushedTo t.id
            (runTracker cfg en (CentroidTracker.init, [], []) cycles).2.2).length →
          t.history.length = 30)) ∧
    (∀ (st : AssocSt) (b : Box), st.err = false →
      scanTracks cfg b.centroid st.tracks = none →
      (assocStep cfg en st b).tracks =
        st.tracks ++ [⟨st.next_id, b.centroid, 0, 1, [b.centroid]⟩]) := by
  constructor
  · intro cycles t ht
    obtain ⟨-, ⟨-, hh⟩, -⟩ := runTracker_inv cfg en cycles _ runInv_init
    obtain ⟨h1, h2⟩ := hh t ht
    refine ⟨h1, h2, fun hlen => ?_⟩
    rw [h1, dropOld_length]
    omega
  · intro st b herr hscan
    simp only [assocStep, herr, Bool.false_eq_true, if_false, hscan]

/-- C6 witness for `C6_history_bound`: after one cycle with one detection
the single track's history is the one pushed centroid, and the creation
shape holds at a concrete association state. -/
theorem C6_witness :
    ((⟨0, (10, 10), 0, 1, [(10, 10)]⟩ : Track) ∈
      (runTracker scenarioCfg false (CentroidTracker.init, [], []) [[bAt 10 10]]).1.tracks) ∧
    ((⟨0, (10, 10), 0, 1, [(10, 10)]⟩ : Track).history =
      dropOld (pushedTo 0
        (runTracker scenarioCfg false (CentroidTracker.init, [], []) [[bAt 10 10]]).2.2)) ∧
    ((⟨[], 0, none, [], [], false, [], []⟩ : AssocSt).err = false ∧
      scanTracks scenarioCfg (bAt 10 10).centroid
        (⟨[], 0, none, [], [], false, [], []⟩ : AssocSt).tracks = none ∧
      (assocStep scenarioCfg false ⟨[], 0, none, [], [], false, [], []⟩ (bAt 10 10)).tracks =
        [⟨0, (bAt 10 10).centroid, 0, 1, [(bAt 10 10).centroid]⟩]) := by
  have hmem : (⟨0, (10, 10), 0, 1, [(10, 10)]⟩ : Track) ∈
      (runTracker scenarioCfg false (CentroidTracker.init, [], []) [[bAt 10 10]]).1.tracks := by
    norm_num [runTracker, CentroidTracker.update, CentroidTracker.init, newCentroids,
      bAt, mkBox, scenarioCfg, ageStep, assocStep, scanTracks, scanStep, saveCheck,
      Box.centroid, trimHist, setTrack, dist2, List.find?, List.foldl, List.filterMap,
      List.filter]
  have herr : (⟨[], 0, none, [], [], false, [], []⟩ : AssocSt).err = false := rfl
  have hscan : scanTracks scenarioCfg (bAt 10 10).centroid
      (⟨[], 0, none, [], [], false, [], []⟩ : AssocSt).tracks = none := rfl
  refine ⟨hmem, ?_, herr, hscan, ?_⟩
  · exact ((C6_history_bound scenarioCfg false).1 [[bAt 10 10]] _ hmem).1
  · exact (C6_history_bound scenarioCfg false).2 ⟨[], 0, none, [], [], false, [], []⟩
      (bAt 10 10) herr hscan

/-! ### Claim C9 -/

/-- C9 (amended): each pair returned by `update` carries the box of the
CURRENT detection, so the class id reported with an assignment is the class
of the matching detection of this cycle, not a class fixed at track
creation (the tracker stores no per-track class); the carried box is one of
this cycle's inputs meeting the confidence threshold. -/
theorem C9_output_class_is_current_detection (cfg : TrackerConfig) (en : Bool)
    (s : CentroidTracker) (boxes : List Box) (l : List (ℕ × Box))
    (hret : (CentroidTracker.update cfg en s boxes).ret = some l) :
    ∀ p ∈ l, p.2 ∈ boxes ∧ cfg.min_confidence ≤ p.2.conf := by
  have hfin := foldl_inv_mem (assocStep cfg en)
    (fun st => ∀ q ∈ st.assigned, q.2 ∈ boxes ∧ cfg.min_confidence ≤ q.2.conf)
    (newCentroids cfg boxes) ?_
    ⟨ageStep cfg.max_age s.tracks, s.next_id, (s.tracks.getLast?).map (·.hits),
      [], [], false, [], []⟩ (fun q hq => absurd hq (List.not_mem_nil q))
  · simp only [CentroidTracker.update] at hret
    by_cases herr : (List.foldl (assocStep cfg en)
        ⟨ageStep cfg.max_age s.tracks, s.next_id, (s.tracks.getLast?).map (·.hits),
          [], [], false, [], []⟩ (newCentroids cfg boxes)).err = true
    · rw [if_pos herr] at hret
      cases hret
    · rw [if_neg herr] at hret
      cases hret
      exact hfin
  · intro st b hb hP
    have hbb : b ∈ boxes ∧ cfg.min_confidence ≤ b.conf := by
      obtain ⟨hb1, hb2⟩ := List.mem_filter.mp hb
      exact ⟨hb1, by simpa using hb2⟩
    unfold assocStep
    by_cases he : st.err = true
    · rw [if_pos he]; exact hP
    · rw [if_neg he]
      cases hscan : scanTracks cfg b.centroid st.tracks with
      | none =>
          simp only [hscan]
          intro q hq
          rcases List.mem_append.mp hq with hm | hm
          · exact hP q hm
          · rw [List.mem_singleton.mp hm]
            exact hbb
      | some p =>
          obtain ⟨d, i⟩ := p
          simp only [hscan]
          cases hfind : st.tracks.find? (fun t => t.id = i) with
          | none => exact hP
          | some t =>
              simp only [hfind]
              intro q hq
              rcases List.mem_append.mp hq with hm | hm
              · exact hP q hm
              · rw [List.mem_singleton.mp hm]
                exact hbb

/-- C9 witness for `C9_output_class_is_current_detection`: the single
returned pair of a one-detection cycle carries that input box, which meets
the confidence threshold. -/
theorem C9_witness :
    ((CentroidTracker.update scenarioCfg false CentroidTracker.init [bAt 10 10]).ret =
      some [(0, bAt 10 10)]) ∧
    ((0, bAt 10 10).2 ∈ [bAt 10 10] ∧
      scenarioCfg.min_confidence ≤ (0, bAt 10 10).2.conf) := by
  have hret : (CentroidTracker.update scenarioCfg false CentroidTracker.init
      [bAt 10 10]).ret = some [(0, bAt 10 10)] := by
    norm_num [CentroidTracker.update, CentroidTracker.init, newCentroids, bAt, mkBox,
      scenarioCfg, ageStep, assocStep, scanTracks, scanStep, saveCheck, Box.centroid,
      trimHist, setTrack, dist2, List.find?, List.foldl, List.filterMap, List.filter]
  exact ⟨hret, C9_output_class_is_current_detection scenarioCfg false _ _ _ hret
    (0, bAt 10 10) (List.mem_singleton.mpr rfl)⟩

/-- C9 counterexample: track 0 is created by a class-0 detection, but when a
class-2 detection at distance about 2.2 matches it on the next cycle, the
returned (track id, class) pair is (0, 2) — the track is re-labelled by the
matching detection, not fixed at its creating detection's class 0. -/
theorem C9_counterexample :
    ((CentroidTracker.update scenarioCfg false CentroidTracker.init
        [mkBox 10 10 (1/2) 0]).ret.map (List.map fun p => (p.1, p.2.cls)) =
      some [(0, 0)]) ∧
    ((CentroidTracker.update scenarioCfg false
        (CentroidTracker.update scenarioCfg false CentroidTracker.init
          [mkBox 10 10 (1/2) 0]).state
        [mkBox 12 11 (1/2) 2]).ret.map (List.map fun p => (p.1, p.2.cls)) =
      some [(0, 2)]) := by
  constructor <;>
    norm_num [CentroidTracker.update, CentroidTracker.init, newCentroids, mkBox,
      scenarioCfg, ageStep, assocStep, scanTracks, scanStep, saveCheck, Box.centroid,
      trimHist, setTrack, dist2, List.find?, List.foldl, List.filterMap, List.filter]
/-! ### Claim C2 -/

/-- C2 (amended): the save of main.py lines 254-257 is not one-shot.  When
tracking is enabled and a detection matches an existing track, the
condition reads the matched track's hit count from BEFORE the update, so a
`DetectionEvent` is recorded precisely when that stale count already
reached `min_hits` — i.e. on every matched cycle starting one cycle AFTER
`hits` first equals `min_hits`, and again on every later matched cycle. -/
theorem C2_save_fires_on_every_confirmed_cycle (cfg : TrackerConfig) (st : AssocSt)
    (b : Box) (d : ℚ) (i : ℕ) (t : Track)
    (herr : st.err = false)
    (hscan : scanTracks cfg b.centroid st.tracks = some (d, i))
    (hfind : st.tracks.find? (fun u => u.id = i) = some t)
    (hcls : 0 ≤ b.cls ∧ b.cls < 80) :
    (assocStep cfg true st b).saves =
      st.saves ++
        (if cfg.min_hits ≤ t.hits then
          [⟨i, b.cls, b.conf, b.centroid, trimHist (t.history ++ [b.centroid])⟩]
         else []) := by
  simp only [assocStep, herr, Bool.false_eq_true, if_false, hscan, hfind]
  show st.saves ++ (saveCheck cfg true _ (some t.hits) i b).1 = _
  rw [saveCheck]
  simp only [if_true]
  rw [find?_setTrack st.tracks i
    (fun u => { u with centroid := b.centroid, hits := u.hits + 1,
                       history := trimHist (u.history ++ [b.centroid]) })
    (fun u => rfl), hfind]
  simp only [Option.map_some']
  by_cases hm : cfg.min_hits ≤ t.hits
  · rw [if_pos hm, if_pos hm, if_pos hcls]
  · rw [if_neg hm, if_neg hm]

/-- C2 witness for `C2_save_fires_on_every_confirmed_cycle`: a track whose
pre-update hit count is 2 = `min_hits` is matched again; the save fires on
this cycle too (hits had first reached `min_hits` on an earlier cycle). -/
theorem C2_witness :
    ((⟨[⟨0, (10, 10), 1, 2, [(10, 10)]⟩], 1, some 2, [], [], false, [], []⟩ : AssocSt).err
        = false) ∧
    (scanTracks scenarioCfg (bAt 10 10).centroid
        [⟨0, (10, 10), 1, 2, [(10, 10)]⟩] = some (0, 0)) ∧
    (([⟨0, (10, 10), 1, 2, [(10, 10)]⟩] : List Track).find? (fun u => u.id = 0) =
        some ⟨0, (10, 10), 1, 2, [(10, 10)]⟩) ∧
    ((assocStep scenarioCfg true
        ⟨[⟨0, (10, 10), 1, 2, [(10, 10)]⟩], 1, some 2, [], [], false, [], []⟩
        (bAt 10 10)).saves =
      [⟨0, 0, 1/2, (10, 10), [(10, 10), (10, 10)]⟩]) := by
  have herr : (⟨[⟨0, (10, 10), 1, 2, [(10, 10)]⟩], 1, some 2, [], [], false, [], []⟩ :
      AssocSt).err = false := rfl
  have hscan : scanTracks scenarioCfg (bAt 10 10).centroid
      [⟨0, (10, 10), 1, 2, [(10, 10)]⟩] = some (0, 0) := by
    norm_num [scanTracks, scanStep, dist2, bAt, mkBox, Box.centroid, scenarioCfg,
      List.foldl]
  have hfind : ([⟨0, (10, 10), 1, 2, [(10, 10)]⟩] : List Track).find?
      (fun u => u.id = 0) = some ⟨0, (10, 10), 1, 2, [(10, 10)]⟩ := by
    norm_num [List.find?]
  refine ⟨herr, hscan, hfind, ?_⟩
  rw [C2_save_fires_on_every_confirmed_cycle scenarioCfg
    ⟨[⟨0, (10, 10), 1, 2, [(10, 10)]⟩], 1, some 2, [], [], false, [], []⟩
    (bAt 10 10) 0 0 ⟨0, (10, 10), 1, 2, [(10, 10)]⟩ herr hscan hfind
    (by norm_num [bAt, mkBox])]
  norm_num [scenarioCfg, bAt, mkBox, Box.centroid, trimHist]

/-- C2 counterexample: run the scenario tracker (`min_hits = 2`, tracking
enabled) on one identical detection per cycle.  The track's hits first
equal `min_hits` at the end of cycle 2, yet no event is recorded by then;
after cycle 4 TWO events have been recorded for track 0 (one in cycle 3 and
one in cycle 4) — the signal neither fires in the first-reach cycle nor
only once.  (The very first cycle raises the update's NameError, which the
stream loop swallows as a reconnect; the partially updated tracker state
survives.) -/
theorem C2_counterexample :
    ((runTracker scenarioCfg true (CentroidTracker.init, [], [])
        [[bAt 10 10], [bAt 10 10]]).1.detections = []) ∧
    ((runTracker scenarioCfg true (CentroidTracker.init, [], [])
        [[bAt 10 10], [bAt 10 10], [bAt 10 10], [bAt 10 10]]).1.detections.map
          SaveEvt.track_id = [0, 0]) := by
  constructor <;>
    norm_num [runTracker, CentroidTracker.update, CentroidTracker.init, newCentroids,
      bAt, mkBox, scenarioCfg, ageStep, assocStep, scanTracks, scanStep, saveCheck,
      Box.centroid, trimHist, setTrack, dist2, List.find?, List.foldl, List.filterMap,
      List.filter]
/-! ### Claim C7 -/

/-- With at least one allowed attempt, the zero-failure state is the fresh
worker state. -/
theorem failState_zero (cfg : ProcConfig) (d : ℤ) (h : 1 ≤ cfg.reconnect_attempts) :
    failState cfg d 0 = initProcState cfg d := by
  simp [failState, initProcState, (by omega : ¬ cfg.reconnect_attempts ≤ 0)]
  omega

/-- C7 (amended): with `reconnect_attempts = N ≥ 1` and `N` consecutive open
failures, the worker's status is still `connecting` after every prefix of
fewer than `N` failures, becomes `error` exactly after the N-th failure —
having slept `reconnect_delay` seconds between attempts exactly N-1 times —
but `error` is NOT terminal: once the reconnect loop exits,
`process_stream_api` unconditionally overwrites the status with `stopped`
(main.py lines 574-575). -/
theorem C7_reconnect_budget (cfg : ProcConfig) (d : ℤ) (N : ℕ)
    (hN : cfg.reconnect_attempts = N) (h1 : 1 ≤ N) :
    (∀ k, k < N →
       (runConns cfg (initProcState cfg d) (List.replicate k .openFail)).1.info.status =
         .connecting ∧
       (runConns cfg (initProcState cfg d) (List.replicate k .openFail)).1.reconnect_count =
         k) ∧
    ((runConns cfg (initProcState cfg d) (List.replicate N .openFail)).1.info.status =
       .error ∧
     (runConns cfg (initProcState cfg d) (List.replicate N .openFail)).1.acts =
       List.replicate (N - 1) (.sleep cfg.reconnect_delay)) ∧
    (procStream cfg d (List.replicate N .openFail)).info.status = .stopped := by
  subst hN
  have hz := failState_zero cfg d h1
  refine ⟨?_, ⟨?_, ?_⟩, ?_⟩
  · intro k hk
    rw [← hz, runConns_openFail cfg d k 0 (by omega)]
    constructor
    · show (failState cfg d (0 + k)).info.status = .connecting
      simp [failState, initProcState, (by omega : ¬ cfg.reconnect_attempts ≤ 0 + k)]
      omega
    · show (failState cfg d (0 + k)).reconnect_count = k
      simp [failState]
  · rw [← hz, runConns_openFail cfg d cfg.reconnect_attempts 0 (by omega)]
    show (failState cfg d (0 + cfg.reconnect_attempts)).info.status = .error
    simp [failState, initProcState,
      (by omega : cfg.reconnect_attempts ≤ 0 + cfg.reconnect_attempts)]
  · rw [← hz, runConns_openFail cfg d cfg.reconnect_attempts 0 (by omega)]
    show (failState cfg d (0 + cfg.reconnect_attempts)).acts = _
    simp only [failState, Nat.zero_add]
    rw [(by omega :
      min cfg.reconnect_attempts (cfg.reconnect_attempts - 1) = cfg.reconnect_attempts - 1)]
  · unfold procStream
    rw [← hz, runConns_openFail cfg d cfg.reconnect_attempts 0 (by omega)]
    simp [(by omega : cfg.reconnect_attempts ≤ 0 + cfg.reconnect_attempts)]

/-- C7 witness for `C7_reconnect_budget`, at `N = 3` with the scenario
processor configuration. -/
theorem C7_witness :
    scenarioPCfg.reconnect_attempts = 3 ∧ 1 ≤ 3 ∧
    (runConns scenarioPCfg (initProcState scenarioPCfg 0)
        (List.replicate 3 .openFail)).1.info.status = .error ∧
    (procStream scenarioPCfg 0 (List.replicate 3 .openFail)).info.status = .stopped := by
  have h := C7_reconnect_budget scenarioPCfg 0 3 rfl (by norm_num)
  exact ⟨rfl, by norm_num, h.2.1.1, h.2.2⟩

/-- C7 counterexample: `error` is not the final status.  With three
consecutive open failures against a budget of three attempts, the final
published status of the worker is `stopped`, not `error` — the claim's
"error is a terminal state not later overwritten" is false (main.py line
575 unconditionally overwrites it). -/
theorem C7_counterexample :
    (procStream scenarioPCfg 0 [.openFail, .openFail, .openFail]).info.status =
      .stopped ∧
    (procStream scenarioPCfg 0 [.openFail, .openFail, .openFail]).info.status ≠
      .error := by
  constructor <;> decide

/-! ### Claim C8 -/

/-- C8 (amended): a failed single-frame read makes the loop iteration sleep
exactly one second and change nothing else — no reconnect counter, status,
tracker or counter update (first conjunct, a full state equality).  But the
reconnect budget is not consumed ONLY by capture-open failures: any
exception escaping a frame-processing iteration also increments the
reconnect counter when caught by the surrounding handler (second
conjunct). -/
theorem C8_transient_read_and_budget :
    (∀ (cfg : ProcConfig) (s : ProcState),
        stepFrame cfg s .readFail = ({ s with acts := s.acts ++ [.sleep 1] }, false)) ∧
    (∀ (cfg : ProcConfig) (s : ProcState) (frames : List FrameEvt) (stopAfter : Bool),
        (runFrames cfg { s with info.status := .running } frames).2 = true →
        (connStep cfg s (.openOk frames stopAfter)).1.reconnect_count =
          s.reconnect_count + 1) := by
  constructor
  · intro cfg s
    rfl
  · intro cfg s frames stopAfter hexc
    simp only [connStep, hexc, if_true]
    show (runFrames cfg { s with info.status := .running } frames).1.reconnect_count + 1 =
      s.reconnect_count + 1
    rw [runFrames_reconnect]

/-- C8 witness for `C8_transient_read_and_budget`: the read-failure equality
at a concrete state, and the budget increment for a concrete trace whose
frame raises the tracker's NameError (no open failure involved). -/
theorem C8_witness :
    (stepFrame scenarioPCfg (initProcState scenarioPCfg 0) .readFail =
      ({ initProcState scenarioPCfg 0 with
          acts := (initProcState scenarioPCfg 0).acts ++ [.sleep 1] }, false)) ∧
    ((runFrames scenarioPCfg
        { initProcState scenarioPCfg 0 with info.status := .running }
        [.frame 0 100 [[bAt 10 10]]]).2 = true) ∧
    ((connStep scenarioPCfg (initProcState scenarioPCfg 0)
        (.openOk [.frame 0 100 [[bAt 10 10]]] false)).1.reconnect_count =
      (initProcState scenarioPCfg 0).reconnect_count + 1) := by
  have hexc : (runFrames scenarioPCfg
      { initProcState scenarioPCfg 0 with info.status := .running }
      [.frame 0 100 [[bAt 10 10]]]).2 = true := by
    norm_num [runFrames, stepFrame, rollDay, resultsLoop, bumpCounters, bumpOne,
      initProcState, scenarioPCfg, scenarioCfg, CentroidTracker.update,
      CentroidTracker.init, newCentroids, bAt, mkBox, ageStep, assocStep, scanTracks,
      scanStep, saveCheck, Box.centroid, trimHist, setTrack, dist2, List.find?,
      List.foldl, List.filterMap, List.filter]
  exact ⟨C8_transient_read_and_budget.1 scenarioPCfg (initProcState scenarioPCfg 0),
    hexc,
    C8_transient_read_and_budget.2 scenarioPCfg (initProcState scenarioPCfg 0)
      [.frame 0 100 [[bAt 10 10]]] false hexc⟩

/-- C8 counterexample to "only full capture-open failures count against the
reconnect budget": a trace with NO open failure — the capture opens, the
first frame carries a detection, and the tracker update raises its
NameError — still leaves the reconnect counter at 1. -/
theorem C8_counterexample :
    (runConns scenarioPCfg (initProcState scenarioPCfg 0)
      [.openOk [.frame 0 100 [[bAt 10 10]]] false]).1.reconnect_count = 1 := by
  norm_num [runConns, connStep, exceptPath, runFrames, stepFrame, rollDay, resultsLoop,
    bumpCounters, bumpOne, initProcState, scenarioPCfg, scenarioCfg,
    CentroidTracker.update, CentroidTracker.init, newCentroids, bAt, mkBox, ageStep,
    assocStep, scanTracks, scanStep, saveCheck, Box.centroid, trimHist, setTrack,
    dist2, List.find?, List.foldl, List.filterMap, List.filter]

/-! ### Claim C10 -/

/-- C10: once the daily saved-frame counter has reached
`max_frames_per_day`, every further same-day captured frame is skipped
entirely: the only effects are the local frame counter advancing and a
one-second sleep — no resize, no detector invocation, no tracker update,
and no status or metric change (first conjunct, a full state equality whose
ghost action trace gains exactly `sleep 1`).  When the capture date
changes, the daily counter is reset to 0 (second conjunct, main.py lines
478-481), after which processing resumes. -/
theorem C10_daily_cap_skips_frames :
    (∀ (cfg : ProcConfig) (s : ProcState) (day : ℤ) (width : ℚ)
        (results : List (List Box)),
        day = s.last_day → cfg.max_frames_per_day ≤ s.daily_frame_count →
        stepFrame cfg s (.frame day width results) =
          ({ s with frame_count := s.frame_count + 1,
                    acts := s.acts ++ [.sleep 1] }, false)) ∧
    (∀ (s : ProcState) (day : ℤ), day ≠ s.last_day →
        rollDay s day = { s with daily_frame_count := 0, last_day := day }) := by
  constructor
  · intro cfg s day width results hday hcap
    subst hday
    simp only [stepFrame, rollDay]
    rw [if_neg (by simp : ¬ (s.last_day ≠
      ({ s with frame_count := s.frame_count + 1 } : ProcState).last_day))]
    rw [if_pos (show cfg.max_frames_per_day ≤ s.daily_frame_count from hcap)]
  · intro s day h
    simp only [rollDay]
    rw [if_pos h]

/-- C10 witness for `C10_daily_cap_skips_frames`: with a zero daily budget,
the very first same-day frame is skipped with only a one-second sleep, and
a date change resets the counter. -/
theorem C10_witness :
    ((0 : ℤ) = (initProcState zeroCapPCfg 0).last_day ∧
      zeroCapPCfg.max_frames_per_day ≤ (initProcState zeroCapPCfg 0).daily_frame_count ∧
      stepFrame zeroCapPCfg (initProcState zeroCapPCfg 0) (.frame 0 100 [[bAt 10 10]]) =
        ({ initProcState zeroCapPCfg 0 with
            frame_count := (initProcState zeroCapPCfg 0).frame_count + 1,
            acts := (initProcState zeroCapPCfg 0).acts ++ [.sleep 1] }, false)) ∧
    ((1 : ℤ) ≠ (initProcState zeroCapPCfg 0).last_day ∧
      rollDay (initProcState zeroCapPCfg 0) 1 =
        { initProcState zeroCapPCfg 0 with daily_frame_count := 0, last_day := 1 }) := by
  have h1 : (0 : ℤ) = (initProcState zeroCapPCfg 0).last_day := rfl
  have h2 : zeroCapPCfg.max_frames_per_day ≤
      (initProcState zeroCapPCfg 0).daily_frame_count := by norm_num [zeroCapPCfg, initProcState]
  have h3 : (1 : ℤ) ≠ (initProcState zeroCapPCfg 0).last_day := by
    norm_num [initProcState]
  exact ⟨⟨h1, h2, C10_daily_cap_skips_frames.1 zeroCapPCfg (initProcState zeroCapPCfg 0)
      0 100 [[bAt 10 10]] h1 h2⟩,
    ⟨h3, C10_daily_cap_skips_frames.2 (initProcState zeroCapPCfg 0) 1 h3⟩⟩
